import Mathlib

/- The Batteries rational operations are `@[irreducible]`, which blocks
`decide` on concrete pipeline runs; restore the default transparency. -/
attribute [local semireducible] Rat.sub Rat.add Rat.mul Rat.inv Rat.ofScientific

/-! Verification of the construction-dashboard data normalizer
(`normalizeBudgetData`, `detectAndMapColumns`, `inferColumnMappings`,
`processCostTypeData`, `processDivisionData`, `processTopBudgetItems`,
`sumField`, `formatCurrency`, `identifyProjectRedFlags`).

JavaScript numbers are modelled as exact rationals; a JS number that is
non-finite (`NaN` or `Infinity`) is modelled as `none : Option ℚ`.
A `TypeError` thrown inside a callback is modelled with `Option`
(`none` = the exception propagates to the `catch`). -/

/-- A JavaScript value as it can appear in a parsed CSV row: a string,
a (finite) number, or null/undefined. -/
inductive JSValue where
  | vNull : JSValue
  | vStr : String → JSValue
  | vNum : ℚ → JSValue
  deriving DecidableEq, Repr

/-- A parsed CSV row: a JS object, i.e. an insertion-ordered association list. -/
abbrev Row := List (String × JSValue)

/-- JS truthiness of a row value. -/
def JSValue.truthy : JSValue → Bool
  | .vNull => false
  | .vStr s => s ≠ ""
  | .vNum q => q ≠ 0

/-- The JS `a || b` idiom on row values. -/
def jsOr (a b : JSValue) : JSValue := if a.truthy then a else b

/-- Property access `row[k]`; a missing key reads as `undefined`. -/
def getField (r : Row) (k : String) : JSValue :=
  match r.find? (fun p => p.1 == k) with
  | some p => p.2
  | none => .vNull

/-- Keep the first occurrence of each element, in order (JS object key order). -/
def dedupFirst (l : List String) : List String :=
  (l.foldl (fun acc k => if k ∈ acc then acc else k :: acc) []).reverse

/-- `Object.keys(r)`. -/
def objKeys (r : Row) : List String := dedupFirst (r.map Prod.fst)

def digitVal (c : Char) : ℕ := c.toNat - '0'.toNat

def natFromDigits (l : List Char) : ℕ := l.foldl (fun n c => 10 * n + digitVal c) 0

def isSpaceChar (c : Char) : Bool := c = ' ' || c = '\t' || c = '\n' || c = '\r'

/-- ASCII lower-casing of one character (the column keys are ASCII). -/
def lowerChar (c : Char) : Char :=
  if 'A' ≤ c ∧ c ≤ 'Z' then Char.ofNat (c.toNat + 32) else c

/-- `key.toLowerCase()` on ASCII keys. -/
def jsToLower (s : String) : String := String.mk (s.data.map lowerChar)

/-- `s.split(sep)` for a one-character separator, over character lists. -/
def splitChars (sep : Char) : List Char → List (List Char)
  | [] => [[]]
  | c :: t =>
    let r := splitChars sep t
    if c = sep then [] :: r
    else
      match r with
      | [] => [[c]]
      | h :: t2 => (c :: h) :: t2

def parseSign : List Char → (ℚ × List Char)
  | '-' :: t => (-1, t)
  | '+' :: t => (1, t)
  | l => (1, l)

def parseExp (l : List Char) : ℤ :=
  let st :=
    match l with
    | '-' :: t => ((-1 : ℤ), t)
    | '+' :: t => ((1 : ℤ), t)
    | _ => ((1 : ℤ), l)
  let ds := st.2.takeWhile Char.isDigit
  if ds.isEmpty then 0 else st.1 * (natFromDigits ds : ℤ)

/-- Model of JavaScript `parseFloat` on a string: skip leading whitespace,
optional sign, then the longest prefix shaped `digits[.digits][e[sign]digits]`;
`none` models a `NaN` result. -/
def parseFloatStr (s : String) : Option ℚ :=
  let l := s.data.dropWhile isSpaceChar
  let sl := parseSign l
  let ip := sl.2.takeWhile Char.isDigit
  let l1 := sl.2.dropWhile Char.isDigit
  let fpRest :=
    match l1 with
    | '.' :: t => (t.takeWhile Char.isDigit, t.dropWhile Char.isDigit)
    | _ => (([] : List Char), l1)
  if ip.isEmpty && fpRest.1.isEmpty then none
  else
    let mant : ℚ := (natFromDigits ip : ℚ) + (natFromDigits fpRest.1 : ℚ) / (10 : ℚ) ^ fpRest.1.length
    let expv : ℤ :=
      match fpRest.2 with
      | 'e' :: t => parseExp t
      | 'E' :: t => parseExp t
      | _ => 0
    some (sl.1 * mant * (10 : ℚ) ^ expv)

/-- Model of `parseFloat(v)` on a row value; `none` models `NaN`. -/
def parseNum : JSValue → Option ℚ
  | .vNull => none
  | .vNum q => some q
  | .vStr s => parseFloatStr s

/-- The `parseFloat(x) || 0` idiom: an unparsable value contributes 0. -/
def toNum (v : JSValue) : ℚ :=
  match parseNum v with
  | some q => q
  | none => 0

/-- The `parseFloat(x) || d` idiom: unparsable, and also a parsed 0, fall
back to the default. -/
def parseFloatOr (v : JSValue) (d : ℚ) : ℚ :=
  match parseNum v with
  | some q => if q = 0 then d else q
  | none => d

/-- `sumField`: sum a field across rows, an unparsable value contributing 0. -/
def sumField (items : List Row) (fieldName : String) : ℚ :=
  items.foldl (fun sum it => sum + toNum (getField it fieldName)) 0

/-- Model of `parseFloat(x.toFixed(2))` on a finite number: `toFixed`
extracts the sign and rounds the magnitude half-up to 2 decimals, and
parsing the decimal string back is exact over ℚ. -/
def round2 (q : ℚ) : ℚ :=
  (if q < 0 then -1 else 1) * (⌊|q| * 100 + 1 / 2⌋ : ℚ) / 100

def padLeftZeros (s : String) (d : ℕ) : String :=
  if s.length ≥ d then s else String.mk (List.replicate (d - s.length) '0') ++ s

/-- Model of `x.toFixed(d)` on a finite number. -/
def toFixedQ (q : ℚ) (d : ℕ) : String :=
  let n := (⌊|q| * (10 : ℚ) ^ d + 1 / 2⌋).toNat
  let body :=
    if d = 0 then toString n
    else toString (n / 10 ^ d) ++ "." ++ padLeftZeros (toString (n % 10 ^ d)) d
  (if q < 0 then "-" else "") ++ body

/-- A JS number that may be non-finite: `none` models `NaN` (and, as an
approximation, `Infinity`, which the time pipeline can also produce). -/
abbrev NumV := Option ℚ

def numSub (a b : NumV) : NumV :=
  match a, b with
  | some x, some y => some (x - y)
  | _, _ => none

def numAdd (a b : NumV) : NumV :=
  match a, b with
  | some x, some y => some (x + y)
  | _, _ => none

/-- `a > c` where `a` may be non-finite; a comparison on `NaN` is false. -/
def numGtC (a : NumV) (c : ℚ) : Bool :=
  match a with
  | some x => decide (x > c)
  | none => false

/-- `a < c` where `a` may be non-finite; a comparison on `NaN` is false. -/
def numLtC (a : NumV) (c : ℚ) : Bool :=
  match a with
  | some x => decide (x < c)
  | none => false

def toFixedN (v : NumV) (d : ℕ) : String :=
  match v with
  | some q => toFixedQ q d
  | none => "NaN"

def decimalLen (q : ℚ) : Option ℕ :=
  (List.range 41).find? (fun d => (|q| * (10 : ℚ) ^ d).den == 1)

/-- Model of JS number-to-string for the finite decimal values that arise
from CSV data (integer part, then fractional digits without trailing zeros). -/
def qToJsString (q : ℚ) : String :=
  match decimalLen q with
  | none => "?"
  | some d =>
    let n := (|q| * (10 : ℚ) ^ d).num.toNat
    let body :=
      if d = 0 then toString n
      else toString (n / 10 ^ d) ++ "." ++ padLeftZeros (toString (n % 10 ^ d)) d
    (if q < 0 then "-" else "") ++ body

/-- JS string coercion of a row value. -/
def jsValueToString : JSValue → String
  | .vNull => "null"
  | .vStr s => s
  | .vNum q => qToJsString q

def chunk3 : List Char → List (List Char)
  | [] => []
  | a :: b :: c :: t => [a, b, c] :: chunk3 t
  | l => [l]

def groupThousands (s : String) : String :=
  String.intercalate "," (((chunk3 s.data.reverse).map (fun c => String.mk c.reverse)).reverse)

/-- `formatCurrency`: model of the `Intl.NumberFormat` USD formatter with 0
fraction digits (ties round away from zero, thousands separated by commas). -/
def formatCurrency (q : ℚ) : String :=
  let n := (⌊|q| + 1 / 2⌋).toNat
  (if q < 0 then "-$" else "$") ++ groupThousands (toString n)

/-- Regular-expression syntax covering the patterns of the column detector:
literal characters, `.`, `\d`, `\s`, alternation, concatenation, star. -/
inductive RE where
  | emp : RE
  | eps : RE
  | chr : Char → RE
  | anyc : RE
  | digitc : RE
  | spacec : RE
  | alt : RE → RE → RE
  | cat : RE → RE → RE
  | star : RE → RE
  deriving Repr

def RE.nullable : RE → Bool
  | .emp => false
  | .eps => true
  | .chr _ => false
  | .anyc => false
  | .digitc => false
  | .spacec => false
  | .alt a b => a.nullable || b.nullable
  | .cat a b => a.nullable && b.nullable
  | .star _ => true

/-- Brzozowski derivative. -/
def RE.deriv : RE → Char → RE
  | .emp, _ => .emp
  | .eps, _ => .emp
  | .chr c, x => if x = c then .eps else .emp
  | .anyc, _ => .eps
  | .digitc, x => if x.isDigit then .eps else .emp
  | .spacec, x => if isSpaceChar x then .eps else .emp
  | .alt a b, x => .alt (a.deriv x) (b.deriv x)
  | .cat a b, x => if a.nullable then .alt (.cat (a.deriv x) b) (b.deriv x) else .cat (a.deriv x) b
  | .star a, x => .cat (a.deriv x) (.star a)

def RE.accepts (r : RE) (s : List Char) : Bool :=
  (s.foldl RE.deriv r).nullable

/-- JS `regex.test(s)`: an unanchored search. -/
def reTest (r : RE) (s : String) : Bool :=
  RE.accepts (.cat (.star .anyc) (.cat r (.star .anyc))) s.data

def reStr (s : String) : RE := s.data.foldr (fun c r => RE.cat (RE.chr c) r) RE.eps

def reOpt (r : RE) : RE := RE.alt RE.eps r

def reSeq (l : List RE) : RE := l.foldr RE.cat RE.eps

/-- `.{1,3}`: one to three arbitrary characters. -/
def reAny13 : RE := RE.cat RE.anyc (reOpt (RE.cat RE.anyc (reOpt RE.anyc)))

/-- `/cost.?code|budget.?code/` -/
def reCostCode : RE :=
  RE.alt (reSeq [reStr "cost", reOpt RE.anyc, reStr "code"])
    (reSeq [reStr "budget", reOpt RE.anyc, reStr "code"])

/-- `/description|desc\.?/` -/
def reDescription : RE :=
  RE.alt (reStr "description") (reSeq [reStr "desc", reOpt (RE.chr '.')])

/-- `/cost.?type|type/` -/
def reCostType : RE :=
  RE.alt (reSeq [reStr "cost", reOpt RE.anyc, reStr "type"]) (reStr "type")

/-- `/current.?contract.?budget|current.?budget|e.{1,3}current/` -/
def reCurrentBudget : RE :=
  RE.alt (reSeq [reStr "current", reOpt RE.anyc, reStr "contract", reOpt RE.anyc, reStr "budget"])
    (RE.alt (reSeq [reStr "current", reOpt RE.anyc, reStr "budget"])
      (reSeq [RE.chr 'e', reAny13, reStr "current"]))

/-- `/total.?billed|billed.?to.?date|j.{1,3}total.?billed/` -/
def reBilledToDate : RE :=
  RE.alt (reSeq [reStr "total", reOpt RE.anyc, reStr "billed"])
    (RE.alt (reSeq [reStr "billed", reOpt RE.anyc, reStr "to", reOpt RE.anyc, reStr "date"])
      (reSeq [RE.chr 'j', reAny13, reStr "total", reOpt RE.anyc, reStr "billed"]))

/-- `/\%\s*billed|billed\s*\%/` -/
def rePercentBilled : RE :=
  RE.alt (reSeq [RE.chr '%', RE.star RE.spacec, reStr "billed"])
    (reSeq [reStr "billed", RE.star RE.spacec, RE.chr '%'])

/-- `/proj.*cost.*complet|forecast.*complet|q.{1,3}proj/` -/
def reProjectedCost : RE :=
  RE.alt (reSeq [reStr "proj", RE.star RE.anyc, reStr "cost", RE.star RE.anyc, reStr "complet"])
    (RE.alt (reSeq [reStr "forecast", RE.star RE.anyc, reStr "complet"])
      (reSeq [RE.chr 'q', reAny13, reStr "proj"]))

/-- `/\(over\)|under|variance|g.*q/` -/
def reVariance : RE :=
  RE.alt (reStr "(over)")
    (RE.alt (reStr "under")
      (RE.alt (reStr "variance") (reSeq [RE.chr 'g', RE.star RE.anyc, RE.chr 'q'])))

/-- `/\%.*billed/i` (fallback test). -/
def reFbPercentBilled : RE := reSeq [RE.chr '%', RE.star RE.anyc, reStr "billed"]

/-- `/projected|forecast/i` (fallback test). -/
def reFbProjected : RE := RE.alt (reStr "projected") (reStr "forecast")

/-- `/variance|over|under/i` (fallback test). -/
def reFbVariance : RE := RE.alt (reStr "variance") (RE.alt (reStr "over") (reStr "under"))

/-- The eight detected column names. -/
structure ColumnMap where
  costCode : String
  costCodeDescription : String
  costType : String
  currentBudget : String
  billedToDate : String
  percentBilled : String
  projectedCost : String
  variance : String
  deriving DecidableEq, Repr

/-- `inferColumnMappings`: fallback guesses keyed on case-insensitive
substring tests, with fixed non-empty defaults when nothing matches. -/
def inferColumnMappings (keys : List String) : ColumnMap :=
  { costCode := (keys.find? (fun k => reTest (reStr "code") (jsToLower k))).getD "Budget Code"
    costCodeDescription :=
      (keys.find? (fun k => reTest (reStr "descr") (jsToLower k))).getD "Budget Code Description"
    costType := (keys.find? (fun k => reTest (reStr "type") (jsToLower k))).getD "Cost Type"
    currentBudget :=
      (keys.find? (fun k => reTest (reStr "budget") (jsToLower k))).getD "E - Current Contract Budget"
    billedToDate :=
      (keys.find? (fun k => reTest (reStr "billed") (jsToLower k))).getD "J - Total Billed to Date"
    percentBilled := (keys.find? (fun k => reTest reFbPercentBilled (jsToLower k))).getD "% Billed to Date"
    projectedCost :=
      (keys.find? (fun k => reTest reFbProjected (jsToLower k))).getD "Q - Proj Cost @ Complete (J+P)"
    variance := (keys.find? (fun k => reTest reFbVariance (jsToLower k))).getD "(Over) / Under Budget (G-Q)" }

/-- One step of the detection loop: the first matching branch of the
`else if` chain claims the key. -/
def detectStep (m : ColumnMap) (key : String) : ColumnMap :=
  let lowerKey := jsToLower key
  if reTest reCostCode lowerKey then { m with costCode := key }
  else if reTest reDescription lowerKey then { m with costCodeDescription := key }
  else if reTest reCostType lowerKey then { m with costType := key }
  else if reTest reCurrentBudget lowerKey then { m with currentBudget := key }
  else if reTest reBilledToDate lowerKey then { m with billedToDate := key }
  else if reTest rePercentBilled lowerKey then { m with percentBilled := key }
  else if reTest reProjectedCost lowerKey then { m with projectedCost := key }
  else if reTest reVariance lowerKey then { m with variance := key }
  else m

def emptyColumnMap : ColumnMap :=
  { costCode := "", costCodeDescription := "", costType := "", currentBudget := ""
    billedToDate := "", percentBilled := "", projectedCost := "", variance := "" }

/-- The `{ ...fallbackMappings, ..._.pickBy(map, v => v !== "") }` merge. -/
def mergeField (detected fallback : String) : String :=
  if detected ≠ "" then detected else fallback

def detectAndMapColumnsKeys (keys : List String) : ColumnMap :=
  let m := keys.foldl detectStep emptyColumnMap
  let fb := inferColumnMappings keys
  { costCode := mergeField m.costCode fb.costCode
    costCodeDescription := mergeField m.costCodeDescription fb.costCodeDescription
    costType := mergeField m.costType fb.costType
    currentBudget := mergeField m.currentBudget fb.currentBudget
    billedToDate := mergeField m.billedToDate fb.billedToDate
    percentBilled := mergeField m.percentBilled fb.percentBilled
    projectedCost := mergeField m.projectedCost fb.projectedCost
    variance := mergeField m.variance fb.variance }

/-- `detectAndMapColumns`: pattern-match the sample row's keys. -/
def detectAndMapColumns (sampleRow : Row) : ColumnMap :=
  detectAndMapColumnsKeys (objKeys sampleRow)

/-- Division key of a row: `(row[cm.costCode] || "").match(/^(\d+)/)` turned
into `"Div <digits>"` or `"Other"`; `none` models the `TypeError` thrown when
the cost-code value is truthy but not a string (e.g. a number), on which
`.match` does not exist. -/
def divKey (cm : ColumnMap) (row : Row) : Option String :=
  match jsOr (getField row cm.costCode) (.vStr "") with
  | .vStr s =>
    let d := s.data.takeWhile Char.isDigit
    some (if d.isEmpty then "Other" else "Div " ++ String.mk d)
  | _ => none

/-- Cost-type key of a row: `row[cm.costType] || "Other"`, coerced to a
string as lodash `groupBy` does. -/
def costTypeKey (cm : ColumnMap) (row : Row) : String :=
  jsValueToString (jsOr (getField row cm.costType) (.vStr "Other"))

/-- Lodash `groupBy`: keys in order of first occurrence, each group holding
the rows with that key in their original order. -/
def jsGroupBy (f : Row → String) (rows : List Row) : List (String × List Row) :=
  (dedupFirst (rows.map f)).map (fun k => (k, rows.filter (fun r => f r == k)))

/-- `groupBy` with a key callback that may throw: the grouping throws
(returns `none`) as soon as the key of some row throws. -/
def jsGroupByT (f : Row → Option String) (rows : List Row) : Option (List (String × List Row)) :=
  match rows.mapM f with
  | none => none
  | some _ => some (jsGroupBy (fun r => (f r).getD "") rows)

def isLeapYear (y : ℤ) : Bool := (y % 4 == 0 && y % 100 != 0) || y % 400 == 0

def daysInMonth (y m : ℤ) : ℤ :=
  if m = 1 ∨ m = 3 ∨ m = 5 ∨ m = 7 ∨ m = 8 ∨ m = 10 ∨ m = 12 then 31
  else if m = 4 ∨ m = 6 ∨ m = 9 ∨ m = 11 then 30
  else if isLeapYear y then 29 else 28

/-- Days from the Unix epoch to the civil date `y-m-d` (the standard
`days_from_civil` algorithm, as used by a UTC `Date`). -/
def daysFromCivil (y m d : ℤ) : ℤ :=
  let y1 := if m ≤ 2 then y - 1 else y
  let era := Int.fdiv y1 400
  let yoe := y1 - era * 400
  let mp := if m > 2 then m - 3 else m + 9
  let doy := (153 * mp + 2) / 5 + d - 1
  let doe := yoe * 365 + yoe / 4 - yoe / 100 + doy
  era * 146097 + doe - 719468

def parseDigits (l : List Char) (len : ℕ) : Option ℕ :=
  if l.length = len ∧ l.all Char.isDigit then some (natFromDigits l) else none

/-- Model of `new Date(s).getTime()` for ISO `YYYY-MM-DD` strings (UTC
midnight, milliseconds); any other string is treated as an invalid date
(`none`, i.e. `NaN`). -/
def dateMs (s : String) : Option ℚ :=
  match splitChars '-' s.data with
  | [ys, ms, ds] =>
    match parseDigits ys 4, parseDigits ms 2, parseDigits ds 2 with
    | some y, some m, some d =>
      if 1 ≤ m ∧ m ≤ 12 ∧ 1 ≤ d ∧ (d : ℤ) ≤ daysInMonth y m then
        some ((daysFromCivil y m d : ℚ) * 86400000)
      else none
    | _, _, _ => none
  | _ => none

/-- Project metadata; `none` models an absent (`undefined`) property. -/
structure ProjectMeta where
  projectName : Option String := none
  startDate : Option String := none
  endDate : Option String := none
  currentDate : Option String := none
  deriving DecidableEq, Repr

/-- The JS `meta?.field || default` idiom on an optional string. -/
def jsOrStr (o : Option String) (d : String) : String :=
  match o with
  | some s => if s = "" then d else s
  | none => d

def truthyStrO (o : Option String) : Bool :=
  match o with
  | some s => s ≠ ""
  | none => false

/-- `new Date(projectMeta.currentDate || new Date())`, as milliseconds. -/
def currentMsOf (meta : ProjectMeta) (nowMs : ℚ) : Option ℚ :=
  match meta.currentDate with
  | some s => if s = "" then some nowMs else dateMs s
  | none => some nowMs

/-- `totalDays = Math.ceil((endDate - startDate) / 86400000)`. -/
def totalDaysOf (meta : ProjectMeta) : Option ℤ :=
  match dateMs (meta.startDate.getD ""), dateMs (meta.endDate.getD "") with
  | some a, some b => some ⌈(b - a) / 86400000⌉
  | _, _ => none

/-- `elapsedDays = Math.ceil((currentDate - startDate) / 86400000)`. -/
def elapsedDaysOf (meta : ProjectMeta) (nowMs : ℚ) : Option ℤ :=
  match dateMs (meta.startDate.getD ""), currentMsOf meta nowMs with
  | some a, some c => some ⌈(c - a) / 86400000⌉
  | _, _ => none

/-- `percentTimeElapsed = parseFloat(((elapsedDays / totalDays) * 100).toFixed(2))`.
The division is unguarded in the source: `totalDays = 0` (or an invalid
date) makes the result non-finite (`none`). -/
def percentTimeElapsedOf (meta : ProjectMeta) (nowMs : ℚ) : NumV :=
  match elapsedDaysOf meta nowMs, totalDaysOf meta with
  | some e, some t => if t = 0 then none else some (round2 ((e : ℚ) / (t : ℚ) * 100))
  | _, _ => none

/-- The `totalDuration` display string. -/
def totalDurationOf (meta : ProjectMeta) : String :=
  match totalDaysOf meta with
  | some t => toString ⌈(t : ℚ) / 30.4⌉ ++ " months"
  | none => "NaN months"

/-- The `result.projectData` record. Fields that the source assigns either
a number or a formatted currency string are typed `JSValue`. -/
structure ProjectData where
  projectName : String
  startDate : String
  endDate : String
  currentDate : String
  daysElapsed : NumV
  totalDuration : String
  percentTimeElapsed : NumV
  totalBudget : JSValue
  totalBilled : JSValue
  percentBilled : ℚ
  projectedFinal : JSValue
  projectedOverage : JSValue
  percentOverage : ℚ
  deriving DecidableEq, Repr

structure CostTypeEntry where
  name : String
  complete : ℚ
  remaining : ℚ
  expectedComplete : NumV
  deriving DecidableEq, Repr

structure DivisionEntry where
  name : String
  complete : ℚ
  expected : NumV
  variance : NumV
  deriving DecidableEq, Repr

structure BudgetItem where
  name : JSValue
  costCode : JSValue
  budget : ℚ
  billed : ℚ
  percentBilled : ℚ
  projected : ℚ
  variance : ℚ
  deriving DecidableEq, Repr

structure NormalizedResult where
  projectData : ProjectData
  budgetData : List BudgetItem
  timeData : List (String × NumV)
  budgetSpentData : List (String × ℚ)
  costTypeData : List CostTypeEntry
  divisionData : List DivisionEntry
  deriving DecidableEq, Repr

structure Finding where
  title : String
  description : String
  type : String
  recommendation : String
  deriving DecidableEq, Repr

/-- The `costTypeMap` label lookup. -/
def costTypeName (costType : String) : String :=
  if costType = "L" then "Labor (L)"
  else if costType = "M" then "Materials (M)"
  else if costType = "S" then "Subcontracts (S)"
  else if costType = "O" then "Other (O)"
  else if costType = "LABOR" then "Labor (L)"
  else if costType = "MATERIAL" then "Materials (M)"
  else if costType = "SUBCONTRACT" then "Subcontracts (S)"
  else if costType = "OTHER" then "Other (O)"
  else costType

/-- The `divisionNames` label lookup. -/
def divisionNames : List (String × String) :=
  [("Div 1", "Div 1 - General"), ("Div 2", "Div 2 - Site Work"),
   ("Div 3", "Div 3 - Concrete"), ("Div 4", "Div 4 - Masonry"),
   ("Div 5", "Div 5 - Metals"), ("Div 6", "Div 6 - Wood/Plastics"),
   ("Div 7", "Div 7 - Thermal/Moisture"), ("Div 8", "Div 8 - Doors/Windows"),
   ("Div 9", "Div 9 - Finishes"), ("Div 10", "Div 10 - Specialties"),
   ("Div 11", "Div 11 - Equipment"), ("Div 12", "Div 12 - Furnishings"),
   ("Div 13", "Div 13 - Special Construction"), ("Div 14", "Div 14 - Conveying Systems"),
   ("Div 15", "Div 15 - Mechanical/Plumbing"), ("Div 16", "Div 16 - Electrical"),
   ("Div 17", "Div 17 - Communications"), ("Div 18", "Div 18 - Builder\x27s Contingency"),
   ("Div 19", "Div 19 - Project Reqmts"), ("Div 20", "Div 20 - Builder\x27s Fee"),
   ("Div 21", "Div 21 - Fire Suppression"), ("Div 22", "Div 22 - Plumbing"),
   ("Div 23", "Div 23 - HVAC"), ("Div 26", "Div 26 - Electrical"),
   ("Div 27", "Div 27 - Communications"), ("Div 28", "Div 28 - Electronic Safety")]

def divisionName (division : String) : String :=
  match divisionNames.find? (fun p => p.1 == division) with
  | some p => p.2
  | none => division

/-- Stable insertion of `a` after every element whose key is not greater. -/
def insertByKey {α : Type} (key : α → ℚ) (a : α) : List α → List α
  | [] => [a]
  | b :: t => if key b ≤ key a then b :: insertByKey key a t else a :: b :: t

/-- Lodash `_.sortBy`: a stable sort, ascending in the iteratee's value.
Any stable sort computes the same list, so a structural insertion sort is
an exact model. -/
def sortByKey {α : Type} (key : α → ℚ) (l : List α) : List α :=
  l.foldl (fun acc a => insertByKey key a acc) []

/-- `processCostTypeData`: one entry per cost-type group whose summed
budget is strictly positive; other groups produce no entry. -/
def processCostTypeData (groupedByCostType : List (String × List Row)) (cm : ColumnMap)
    (expectedComplete : NumV) : List CostTypeEntry :=
  groupedByCostType.filterMap (fun kg =>
    let totalBudget := sumField kg.2 cm.currentBudget
    let totalBilled := sumField kg.2 cm.billedToDate
    if totalBudget > 0 then
      let percentComplete := totalBilled / totalBudget * 100
      some { name := costTypeName kg.1, complete := round2 percentComplete,
             remaining := round2 (100 - percentComplete), expectedComplete := expectedComplete }
    else none)

/-- The entry a division group contributes (when its budget is positive). -/
def mkDivisionEntry (cm : ColumnMap) (expectedComplete : NumV) (kg : String × List Row) :
    Option DivisionEntry :=
  let totalBudget := sumField kg.2 cm.currentBudget
  let totalBilled := sumField kg.2 cm.billedToDate
  if totalBudget > 0 then
    let percentComplete := totalBilled / totalBudget * 100
    some { name := divisionName kg.1, complete := round2 percentComplete,
           expected := expectedComplete,
           variance := (numSub (some percentComplete) expectedComplete).map round2 }
  else none

/-- `processDivisionData`: entries for positive-budget division groups,
sorted from most complete to least complete (`sortBy` on `-complete`). -/
def processDivisionData (groupedByDivision : List (String × List Row)) (cm : ColumnMap)
    (expectedComplete : NumV) : List DivisionEntry :=
  sortByKey (fun item => -item.complete)
    (groupedByDivision.filterMap (mkDivisionEntry cm expectedComplete))

/-- One line item of `processTopBudgetItems`. -/
def mkBudgetItem (cm : ColumnMap) (row : Row) : BudgetItem :=
  let budget := toNum (getField row cm.currentBudget)
  let billed := toNum (getField row cm.billedToDate)
  let projected := parseFloatOr (getField row cm.projectedCost) budget
  { name := jsOr (getField row cm.costCodeDescription) (.vStr "Unnamed Item")
    costCode := jsOr (getField row cm.costCode) (.vStr "")
    budget := budget
    billed := billed
    percentBilled := if budget > 0 then billed / budget * 100 else 0
    projected := projected
    variance := budget - projected }

/-- `processTopBudgetItems`: map rows to items, sort by descending budget
(`sortBy` on `-budget`), keep the first `limit` (default 5). -/
def processTopBudgetItems (rawBudgetData : List Row) (cm : ColumnMap) (limit : ℕ := 5) :
    List BudgetItem :=
  (sortByKey (fun item => -item.budget) (rawBudgetData.map (mkBudgetItem cm))).take limit

/-- The zeroed default record built at the top of `normalizeBudgetData`. -/
def defaultResult (meta : ProjectMeta) (nowLocale : String) : NormalizedResult :=
  { projectData :=
      { projectName := jsOrStr meta.projectName "Construction Project"
        startDate := jsOrStr meta.startDate ""
        endDate := jsOrStr meta.endDate ""
        currentDate := jsOrStr meta.currentDate nowLocale
        daysElapsed := some 0
        totalDuration := ""
        percentTimeElapsed := some 0
        totalBudget := .vNum 0
        totalBilled := .vNum 0
        percentBilled := 0
        projectedFinal := .vNum 0
        projectedOverage := .vNum 0
        percentOverage := 0 }
    budgetData := []
    timeData := []
    budgetSpentData := []
    costTypeData := []
    divisionData := [] }

/-- The time-metric mutations at the top of the `try` block, performed when
both `startDate` and `endDate` are truthy. They mutate `result` in place, so
they survive into the `catch` branch. -/
def applyTimeMetrics (res : NormalizedResult) (meta : ProjectMeta) (nowMs : ℚ) :
    NormalizedResult :=
  if truthyStrO meta.startDate && truthyStrO meta.endDate then
    { res with projectData :=
        { res.projectData with
          daysElapsed := (elapsedDaysOf meta nowMs).map (fun z => (z : ℚ))
          totalDuration := totalDurationOf meta
          percentTimeElapsed := percentTimeElapsedOf meta nowMs } }
  else res

/-- `normalizeBudgetData`: the whole pipeline. `rawBudgetData = none` models
a `null`/`undefined` argument; `nowMs`/`nowLocale` model the ambient clock
read by `new Date()`. When the division `groupBy` key callback throws
(`jsGroupByT` returns `none`), the `catch` branch returns the result record
as mutated so far. -/
def normalizeBudgetData (rawBudgetData : Option (List Row)) (meta : ProjectMeta)
    (nowMs : ℚ) (nowLocale : String) : NormalizedResult :=
  let result := defaultResult meta nowLocale
  match rawBudgetData with
  | none => result
  | some [] => result
  | some (r0 :: rest) =>
    let rows := r0 :: rest
    let result := applyTimeMetrics result meta nowMs
    let cm := detectAndMapColumns r0
    match jsGroupByT (divKey cm) rows with
    | none => result
    | some groupedByDivision =>
      let groupedByCostType := jsGroupBy (costTypeKey cm) rows
      let totalBudget := sumField rows cm.currentBudget
      let totalBilled := sumField rows cm.billedToDate
      let projectedFinalCost := sumField rows cm.projectedCost
      let percentBilled := if totalBudget > 0 then totalBilled / totalBudget * 100 else 0
      let projectedOverage := projectedFinalCost - totalBudget
      let percentOverage := if totalBudget > 0 then projectedOverage / totalBudget * 100 else 0
      let pd :=
        { result.projectData with
          totalBudget := .vStr (formatCurrency totalBudget)
          totalBilled := .vStr (formatCurrency totalBilled)
          percentBilled := round2 percentBilled
          projectedFinal := .vStr (formatCurrency projectedFinalCost)
          projectedOverage := .vStr (formatCurrency projectedOverage)
          percentOverage := round2 percentOverage }
      { projectData := pd
        timeData := [("Time Elapsed", pd.percentTimeElapsed),
                     ("Time Remaining", numSub (some 100) pd.percentTimeElapsed)]
        budgetSpentData := [("Budget Spent", pd.percentBilled),
                            ("Budget Remaining", 100 - pd.percentBilled)]
        costTypeData := processCostTypeData groupedByCostType cm pd.percentTimeElapsed
        divisionData := processDivisionData groupedByDivision cm pd.percentTimeElapsed
        budgetData := processTopBudgetItems rows cm }

/-- The finding pushed by the schedule-variance check. -/
def scheduleFinding (pd : ProjectData) : Finding :=
  let scheduleVariance := numSub pd.percentTimeElapsed (some pd.percentBilled)
  { title := "Schedule Status"
    description := "Project is " ++ toFixedN scheduleVariance 1 ++ "% behind schedule (" ++
      toFixedN pd.percentTimeElapsed 1 ++ "% time elapsed vs " ++
      toFixedQ pd.percentBilled 1 ++ "% budget spent)"
    type := if numGtC scheduleVariance 10 then "danger" else "warning"
    recommendation := "Review schedule and accelerate critical path activities" }

/-- The finding pushed by the cost-type imbalance check. -/
def costTypeFinding (ct : CostTypeEntry) : Finding :=
  { title := ct.name ++ " Progress Concern"
    description := ct.name ++ " only " ++ toFixedQ ct.complete 1 ++ "% complete vs expected " ++
      toFixedN ct.expectedComplete 1 ++ "%"
    type := "danger"
    recommendation := "Expedite " ++ String.mk ((splitChars ' ' ct.name.data).headD []) ++
      " procurement and activities" }

/-- The finding pushed by the division progress check. -/
def divisionFinding (d : DivisionEntry) : Finding :=
  { title := d.name ++ " Behind Schedule"
    description := d.name ++ " only " ++ toFixedQ d.complete 1 ++ "% complete vs expected " ++
      toFixedN d.expected 1 ++ "%"
    type := "danger"
    recommendation := "Prioritize " ++ d.name ++ " activities to prevent cascading delays" }

/-- The finding pushed by the budget overrun check. -/
def budgetFinding (pd : ProjectData) : Finding :=
  { title := "Budget Concerns"
    description := "Projected overrun of " ++ jsValueToString pd.projectedOverage ++ " (" ++
      toFixedQ pd.percentOverage 1 ++ "% over budget)"
    type := if pd.percentOverage > 5 then "danger" else "warning"
    recommendation := "Review contingency usage and implement cost controls" }

/-- `identifyProjectRedFlags`: the four heuristic checks, in order. -/
def identifyProjectRedFlags (nd : NormalizedResult) : List Finding :=
  let pd := nd.projectData
  let scheduleVariance := numSub pd.percentTimeElapsed (some pd.percentBilled)
  (if numGtC scheduleVariance 5 then [scheduleFinding pd] else []) ++
  nd.costTypeData.filterMap (fun ct =>
    if numLtC (numSub (some ct.complete) ct.expectedComplete) (-15) then
      some (costTypeFinding ct) else none) ++
  nd.divisionData.filterMap (fun d =>
    if numLtC d.variance (-20) then some (divisionFinding d) else none) ++
  (if pd.percentOverage > 0 then [budgetFinding pd] else [])

/-! Helper lemmas. -/

theorem dedupFirst_go_mem (l acc : List String) (x : String) :
    x ∈ l.foldl (fun a k => if k ∈ a then a else k :: a) acc ↔ x ∈ l ∨ x ∈ acc := by
  induction l generalizing acc with
  | nil => simp
  | cons a t ih =>
    by_cases h : a ∈ acc
    · simp only [List.foldl_cons, if_pos h, ih, List.mem_cons]
      by_cases hxa : x = a
      · subst hxa; tauto
      · tauto
    · simp only [List.foldl_cons, if_neg h, ih, List.mem_cons]
      tauto

theorem dedupFirst_go_nodup (l : List String) : ∀ acc : List String, acc.Nodup →
    (l.foldl (fun a k => if k ∈ a then a else k :: a) acc).Nodup := by
  induction l with
  | nil => intro acc hacc; simpa using hacc
  | cons a t ih =>
    intro acc hacc
    by_cases h : a ∈ acc
    · simp only [List.foldl_cons, if_pos h]; exact ih acc hacc
    · simp only [List.foldl_cons, if_neg h]
      exact ih _ (List.nodup_cons.mpr ⟨h, hacc⟩)

theorem mem_dedupFirst (l : List String) (x : String) : x ∈ dedupFirst l ↔ x ∈ l := by
  unfold dedupFirst
  rw [List.mem_reverse, dedupFirst_go_mem]
  simp

theorem nodup_dedupFirst (l : List String) : (dedupFirst l).Nodup := by
  unfold dedupFirst
  exact List.nodup_reverse.mpr (dedupFirst_go_nodup l [] (by simp))

theorem jsGroupBy_mem (f : Row → String) (rows : List Row) (k : String) (g : List Row) :
    (k, g) ∈ jsGroupBy f rows ↔
      k ∈ dedupFirst (rows.map f) ∧ g = rows.filter (fun r => f r == k) := by
  simp only [jsGroupBy, List.mem_map, Prod.mk.injEq]
  constructor
  · rintro ⟨k1, hk1, rfl, rfl⟩
    exact ⟨hk1, rfl⟩
  · rintro ⟨h1, rfl⟩
    exact ⟨k, h1, rfl, rfl⟩

/-- Every row lands in exactly one `groupBy` group, the one keyed by its key. -/
theorem jsGroupBy_exists_unique (f : Row → String) (rows : List Row) (r : Row) (hr : r ∈ rows) :
    ∃! kg : String × List Row, kg ∈ jsGroupBy f rows ∧ r ∈ kg.2 := by
  refine ⟨(f r, rows.filter (fun x => f x == f r)), ⟨?_, ?_⟩, ?_⟩
  · rw [jsGroupBy_mem]
    exact ⟨(mem_dedupFirst _ _).mpr (List.mem_map_of_mem f hr), rfl⟩
  · simp [List.mem_filter, hr]
  · rintro ⟨k, g⟩ ⟨hmem, hrg⟩
    rw [jsGroupBy_mem] at hmem
    obtain ⟨hk, rfl⟩ := hmem
    have hfk : f r = k := by simpa using (List.mem_filter.mp hrg).2
    subst hfk
    rfl

theorem jsGroupBy_key_eq (f : Row → String) (rows : List Row) (k : String) (g : List Row)
    (h : (k, g) ∈ jsGroupBy f rows) : ∀ r ∈ g, f r = k := by
  rw [jsGroupBy_mem] at h
  obtain ⟨_, rfl⟩ := h
  intro r hr
  simpa using (List.mem_filter.mp hr).2

theorem mapM_some_of_forall (f : Row → Option String) (l : List Row)
    (h : ∀ r ∈ l, (f r).isSome = true) : ∃ ks, l.mapM f = some ks := by
  induction l with
  | nil => exact ⟨[], rfl⟩
  | cons a t ih =>
    obtain ⟨b, hb⟩ := Option.isSome_iff_exists.mp (h a (List.mem_cons_self a t))
    obtain ⟨ks, hks⟩ := ih (fun r hr => h r (List.mem_cons_of_mem a hr))
    refine ⟨b :: ks, ?_⟩
    rw [List.mapM_cons, hb, hks]
    rfl

theorem foldl_add_eq (g : Row → ℚ) (l : List Row) (a : ℚ) :
    l.foldl (fun s it => s + g it) a = a + (l.map g).sum := by
  induction l generalizing a with
  | nil => simp
  | cons x t ih => simp [ih (a + g x), add_assoc]

theorem sumField_eq_sum (items : List Row) (fieldName : String) :
    sumField items fieldName = (items.map (fun r => toNum (getField r fieldName))).sum := by
  unfold sumField
  rw [foldl_add_eq]
  simp

theorem mergeField_ne_empty (d fb : String) (hfb : fb ≠ "") : mergeField d fb ≠ "" := by
  unfold mergeField
  split
  next h => exact h
  next => exact hfb

theorem find_getD_ne_empty (p : String → Bool) (l : List String) (d : String)
    (hp : p "" = false) (hd : d ≠ "") : (l.find? p).getD d ≠ "" := by
  cases hfind : l.find? p with
  | none => simpa using hd
  | some k =>
    have hk := List.find?_some hfind
    simp only [Option.getD_some]
    intro hemp
    subst hemp
    rw [hp] at hk
    simp at hk

theorem numGtC_numSub_iff (a : NumV) (c g : ℚ) :
    numGtC (numSub a (some c)) g = true ↔ ∃ q, a = some q ∧ q - c > g := by
  cases a <;> simp [numGtC, numSub]

theorem numLtC_numSub_iff (a : NumV) (c g : ℚ) :
    numLtC (numSub (some c) a) g = true ↔ ∃ e, a = some e ∧ c - e < g := by
  cases a <;> simp [numLtC, numSub]

theorem numLtC_iff (a : NumV) (g : ℚ) :
    numLtC a g = true ↔ ∃ v, a = some v ∧ v < g := by
  cases a <;> simp [numLtC]

theorem mem_ite_singleton {α : Type} (c : Prop) [Decidable c] (a x : α) :
    (x ∈ if c then [a] else []) ↔ c ∧ x = a := by
  split <;> simp_all

theorem mem_insertByKey {α : Type} (key : α → ℚ) (a x : α) (l : List α) :
    x ∈ insertByKey key a l ↔ x = a ∨ x ∈ l := by
  induction l with
  | nil => simp [insertByKey]
  | cons b t ih =>
    simp only [insertByKey]
    split
    · simp only [List.mem_cons, ih]
      tauto
    · simp only [List.mem_cons]

theorem pairwise_insertByKey {α : Type} (key : α → ℚ) (a : α) (l : List α)
    (h : List.Pairwise (fun x y => key x ≤ key y) l) :
    List.Pairwise (fun x y => key x ≤ key y) (insertByKey key a l) := by
  induction l with
  | nil => simp [insertByKey]
  | cons b t ih =>
    rcases List.pairwise_cons.mp h with ⟨hb, ht⟩
    simp only [insertByKey]
    split
    next hba =>
      refine List.pairwise_cons.mpr ⟨?_, ih ht⟩
      intro x hx
      rcases (mem_insertByKey key a x t).mp hx with rfl | hx
      · exact hba
      · exact hb x hx
    next hba =>
      have hab : key a ≤ key b := le_of_lt (lt_of_not_le hba)
      refine List.pairwise_cons.mpr ⟨?_, h⟩
      intro x hx
      rcases List.mem_cons.mp hx with rfl | hx
      · exact hab
      · exact le_trans hab (hb x hx)

theorem sortByKey_go_pairwise {α : Type} (key : α → ℚ) (l : List α) : ∀ acc : List α,
    List.Pairwise (fun x y => key x ≤ key y) acc →
    List.Pairwise (fun x y => key x ≤ key y)
      (l.foldl (fun acc a => insertByKey key a acc) acc) := by
  induction l with
  | nil => intro acc h; simpa using h
  | cons a t ih =>
    intro acc h
    simp only [List.foldl_cons]
    exact ih _ (pairwise_insertByKey key a acc h)

theorem sortByKey_pairwise {α : Type} (key : α → ℚ) (l : List α) :
    List.Pairwise (fun x y => key x ≤ key y) (sortByKey key l) :=
  sortByKey_go_pairwise key l [] (by simp)

theorem sortByKey_go_mem {α : Type} (key : α → ℚ) (l : List α) (x : α) : ∀ acc : List α,
    (x ∈ l.foldl (fun acc a => insertByKey key a acc) acc ↔ x ∈ l ∨ x ∈ acc) := by
  induction l with
  | nil => intro acc; simp
  | cons a t ih =>
    intro acc
    simp only [List.foldl_cons, ih, mem_insertByKey, List.mem_cons]
    tauto

theorem mem_sortByKey {α : Type} (key : α → ℚ) (l : List α) (x : α) :
    x ∈ sortByKey key l ↔ x ∈ l := by
  unfold sortByKey
  rw [sortByKey_go_mem]
  simp

/-- Sorting on a negated key yields a list non-increasing in the key. -/
theorem pairwise_sortByKey_neg {α : Type} (key : α → ℚ) (l : List α) :
    List.Pairwise (fun a b : α => key b ≤ key a) (sortByKey (fun item => -key item) l) := by
  have h := sortByKey_pairwise (fun item => -key item) l
  exact h.imp (fun hab => by simpa using hab)

/-- Claim C8: on a `null`/`undefined` or empty row list, `normalizeBudgetData`
does not throw and returns the plain default aggregate record — all totals
zero and all five data arrays empty — regardless of `projectMeta`. -/
theorem normalizeBudgetData_empty_boundary (meta : ProjectMeta) (nowMs : ℚ) (nowLocale : String) :
    normalizeBudgetData none meta nowMs nowLocale = defaultResult meta nowLocale ∧
    normalizeBudgetData (some []) meta nowMs nowLocale = defaultResult meta nowLocale ∧
    (defaultResult meta nowLocale).budgetData = [] ∧
    (defaultResult meta nowLocale).timeData = [] ∧
    (defaultResult meta nowLocale).budgetSpentData = [] ∧
    (defaultResult meta nowLocale).costTypeData = [] ∧
    (defaultResult meta nowLocale).divisionData = [] ∧
    (defaultResult meta nowLocale).projectData.totalBudget = JSValue.vNum 0 ∧
    (defaultResult meta nowLocale).projectData.totalBilled = JSValue.vNum 0 ∧
    (defaultResult meta nowLocale).projectData.percentBilled = 0 ∧
    (defaultResult meta nowLocale).projectData.projectedFinal = JSValue.vNum 0 ∧
    (defaultResult meta nowLocale).projectData.projectedOverage = JSValue.vNum 0 ∧
    (defaultResult meta nowLocale).projectData.percentOverage = 0 :=
  ⟨rfl, rfl, rfl, rfl, rfl, rfl, rfl, rfl, rfl, rfl, rfl, rfl, rfl⟩

/-- Claim C10: for every input, the division list returned by
`processDivisionData` is sorted in non-increasing order of the entries'
`complete` field (most complete first). -/
theorem processDivisionData_sorted (groupedByDivision : List (String × List Row))
    (cm : ColumnMap) (expectedComplete : NumV) :
    List.Pairwise (fun a b : DivisionEntry => b.complete ≤ a.complete)
      (processDivisionData groupedByDivision cm expectedComplete) := by
  unfold processDivisionData
  exact pairwise_sortByKey_neg (fun e : DivisionEntry => e.complete) _

/-- Claim C4: for every row list, `processTopBudgetItems` is sorted in
non-increasing order of the parsed current-budget value (unparsable budgets
counting as 0), contains at most 5 items (the default limit), and every
item is built from some input row, carrying that row's description, cost
code, budget, billed, percent billed, projected cost and variance. -/
theorem processTopBudgetItems_spec (rawBudgetData : List Row) (cm : ColumnMap) :
    List.Pairwise (fun a b : BudgetItem => b.budget ≤ a.budget)
      (processTopBudgetItems rawBudgetData cm) ∧
    (processTopBudgetItems rawBudgetData cm).length ≤ 5 ∧
    (∀ it ∈ processTopBudgetItems rawBudgetData cm, ∃ r ∈ rawBudgetData, it = mkBudgetItem cm r) := by
  unfold processTopBudgetItems
  refine ⟨?_, ?_, ?_⟩
  · exact List.Pairwise.sublist (List.take_sublist _ _)
      (pairwise_sortByKey_neg (fun e : BudgetItem => e.budget) _)
  · rw [List.length_take]
    exact min_le_left _ _
  · intro it hit
    have h1 : it ∈ sortByKey (fun item : BudgetItem => -item.budget)
        (rawBudgetData.map (mkBudgetItem cm)) := List.take_subset _ _ hit
    have h2 : it ∈ rawBudgetData.map (mkBudgetItem cm) :=
      (mem_sortByKey _ _ _).mp h1
    obtain ⟨r, hr, rfl⟩ := List.mem_map.mp h2
    exact ⟨r, hr, rfl⟩

/-- Witness for C4 at a concrete one-row input. -/
theorem processTopBudgetItems_spec_witness :
    ∃ r ∈ ([[("A", JSValue.vNum 1)]] : List Row),
      mkBudgetItem (detectAndMapColumns [("A", JSValue.vNum 1)]) [("A", JSValue.vNum 1)] =
        mkBudgetItem (detectAndMapColumns [("A", JSValue.vNum 1)]) r :=
  (processTopBudgetItems_spec [[("A", JSValue.vNum 1)]]
      (detectAndMapColumns [("A", JSValue.vNum 1)])).2.2
    (mkBudgetItem (detectAndMapColumns [("A", JSValue.vNum 1)]) [("A", JSValue.vNum 1)])
    (by decide)

/-- Claim C3: for every non-empty row list, column detection depends only on
the keys of the first row (`detectAndMapColumns` is invariant under any row
with the same `Object.keys`), and because unmatched fields fall back to the
`inferColumnMappings` defaults, every one of the eight mapped fields is a
non-empty column name; in the pipeline the map detected from
`rawBudgetData[0]` is the one used, as visible on the top-items output. -/
theorem detectAndMapColumns_spec (r : Row) :
    (∀ r' : Row, objKeys r' = objKeys r → detectAndMapColumns r' = detectAndMapColumns r) ∧
    (detectAndMapColumns r).costCode ≠ "" ∧
    (detectAndMapColumns r).costCodeDescription ≠ "" ∧
    (detectAndMapColumns r).costType ≠ "" ∧
    (detectAndMapColumns r).currentBudget ≠ "" ∧
    (detectAndMapColumns r).billedToDate ≠ "" ∧
    (detectAndMapColumns r).percentBilled ≠ "" ∧
    (detectAndMapColumns r).projectedCost ≠ "" ∧
    (detectAndMapColumns r).variance ≠ "" ∧
    (∀ rest meta nowMs nowLocale G,
      jsGroupByT (divKey (detectAndMapColumns r)) (r :: rest) = some G →
      (normalizeBudgetData (some (r :: rest)) meta nowMs nowLocale).budgetData =
        processTopBudgetItems (r :: rest) (detectAndMapColumns r)) := by
  refine ⟨?_, ?_, ?_, ?_, ?_, ?_, ?_, ?_, ?_, ?_⟩
  · intro r' h
    unfold detectAndMapColumns
    rw [h]
  · exact mergeField_ne_empty _ _ (find_getD_ne_empty _ _ _ (by decide) (by decide))
  · exact mergeField_ne_empty _ _ (find_getD_ne_empty _ _ _ (by decide) (by decide))
  · exact mergeField_ne_empty _ _ (find_getD_ne_empty _ _ _ (by decide) (by decide))
  · exact mergeField_ne_empty _ _ (find_getD_ne_empty _ _ _ (by decide) (by decide))
  · exact mergeField_ne_empty _ _ (find_getD_ne_empty _ _ _ (by decide) (by decide))
  · exact mergeField_ne_empty _ _ (find_getD_ne_empty _ _ _ (by decide) (by decide))
  · exact mergeField_ne_empty _ _ (find_getD_ne_empty _ _ _ (by decide) (by decide))
  · exact mergeField_ne_empty _ _ (find_getD_ne_empty _ _ _ (by decide) (by decide))
  · intro rest meta nowMs nowLocale G hG
    simp only [normalizeBudgetData, hG]

/-- Witness for C3: two one-key rows with the same keys but different
values get the same column map. -/
theorem detectAndMapColumns_spec_witness :
    objKeys ([("B", JSValue.vNum 2)] : Row) = objKeys ([("B", JSValue.vNum 1)] : Row) ∧
    detectAndMapColumns ([("B", JSValue.vNum 2)] : Row) =
      detectAndMapColumns ([("B", JSValue.vNum 1)] : Row) :=
  ⟨by decide, (detectAndMapColumns_spec [("B", JSValue.vNum 1)]).1 [("B", JSValue.vNum 2)] (by decide)⟩

theorem ite_danger_eq (c : Prop) [Decidable c] :
    ((if c then "danger" else "warning") = "danger") ↔ c := by
  split
  next h => simp [h]
  next h => simp [h]

theorem ite_danger_or (c : Prop) [Decidable c] :
    (if c then "danger" else "warning") = "danger" ∨
    (if c then "danger" else "warning") = "warning" := by
  split
  · exact Or.inl rfl
  · exact Or.inr rfl

/-- Claim C5: `identifyProjectRedFlags` produces findings exactly when its
threshold comparisons fire: the Schedule Status finding is present iff the
(finite) `percentTimeElapsed - percentBilled` exceeds 5, with type danger
iff it exceeds 10 and warning otherwise; one progress-concern finding per
cost-type entry iff `complete - expectedComplete < -15`; one behind-schedule
finding per division entry iff `variance < -20`; the Budget Concerns finding
iff `percentOverage > 0`, danger iff it exceeds 5; and no other findings. -/
theorem identifyProjectRedFlags_spec (nd : NormalizedResult) :
    (∀ f, f ∈ identifyProjectRedFlags nd ↔
      (f = scheduleFinding nd.projectData ∧
        ∃ q, nd.projectData.percentTimeElapsed = some q ∧
          q - nd.projectData.percentBilled > 5) ∨
      (∃ ct ∈ nd.costTypeData, f = costTypeFinding ct ∧
        ∃ e, ct.expectedComplete = some e ∧ ct.complete - e < -15) ∨
      (∃ d ∈ nd.divisionData, f = divisionFinding d ∧
        ∃ v, d.variance = some v ∧ v < -20) ∨
      (f = budgetFinding nd.projectData ∧ nd.projectData.percentOverage > 0)) ∧
    ((scheduleFinding nd.projectData).type = "danger" ↔
      ∃ q, nd.projectData.percentTimeElapsed = some q ∧
        q - nd.projectData.percentBilled > 10) ∧
    ((scheduleFinding nd.projectData).type = "danger" ∨
      (scheduleFinding nd.projectData).type = "warning") ∧
    ((budgetFinding nd.projectData).type = "danger" ↔ nd.projectData.percentOverage > 5) ∧
    ((budgetFinding nd.projectData).type = "danger" ∨
      (budgetFinding nd.projectData).type = "warning") ∧
    (∀ ct : CostTypeEntry, (costTypeFinding ct).type = "danger") ∧
    (∀ d : DivisionEntry, (divisionFinding d).type = "danger") := by
  refine ⟨?_, ?_, ?_, ?_, ?_, fun ct => rfl, fun d => rfl⟩
  · intro f
    simp only [identifyProjectRedFlags, List.mem_append, List.mem_filterMap,
      mem_ite_singleton, Option.ite_none_right_eq_some, numGtC_numSub_iff]
    simp only [numLtC_numSub_iff]
    simp only [numLtC_iff, Option.some.injEq]
    constructor
    · rintro (((⟨⟨q, hq, h5⟩, rfl⟩ | ⟨ct, hct, ⟨e, he, h15⟩, rfl⟩) |
        ⟨d, hd, ⟨v, hv, h20⟩, rfl⟩) | ⟨h0, rfl⟩)
      · exact Or.inl ⟨rfl, q, hq, h5⟩
      · exact Or.inr (Or.inl ⟨ct, hct, rfl, e, he, h15⟩)
      · exact Or.inr (Or.inr (Or.inl ⟨d, hd, rfl, v, hv, h20⟩))
      · exact Or.inr (Or.inr (Or.inr ⟨rfl, h0⟩))
    · rintro (⟨rfl, q, hq, h5⟩ | ⟨ct, hct, rfl, e, he, h15⟩ |
        ⟨d, hd, rfl, v, hv, h20⟩ | ⟨rfl, h0⟩)
      · exact Or.inl (Or.inl (Or.inl ⟨⟨q, hq, h5⟩, rfl⟩))
      · exact Or.inl (Or.inl (Or.inr ⟨ct, hct, ⟨e, he, h15⟩, rfl⟩))
      · exact Or.inl (Or.inr ⟨d, hd, ⟨v, hv, h20⟩, rfl⟩)
      · exact Or.inr ⟨h0, rfl⟩
  · exact (ite_danger_eq _).trans (numGtC_numSub_iff nd.projectData.percentTimeElapsed
      nd.projectData.percentBilled 10)
  · exact ite_danger_or _
  · exact ite_danger_eq _
  · exact ite_danger_or _

/-- Witness for C5: a record with `percentTimeElapsed = 50` and
`percentBilled = 10` yields the Schedule Status finding. -/
theorem identifyProjectRedFlags_spec_witness :
    scheduleFinding
      { projectName := "P", startDate := "", endDate := "", currentDate := "",
        daysElapsed := some 0, totalDuration := "", percentTimeElapsed := some 50,
        totalBudget := JSValue.vNum 0, totalBilled := JSValue.vNum 0, percentBilled := 10,
        projectedFinal := JSValue.vNum 0, projectedOverage := JSValue.vNum 0,
        percentOverage := 0 } ∈
    identifyProjectRedFlags
      { projectData :=
          { projectName := "P", startDate := "", endDate := "", currentDate := "",
            daysElapsed := some 0, totalDuration := "", percentTimeElapsed := some 50,
            totalBudget := JSValue.vNum 0, totalBilled := JSValue.vNum 0, percentBilled := 10,
            projectedFinal := JSValue.vNum 0, projectedOverage := JSValue.vNum 0,
            percentOverage := 0 }
        budgetData := [], timeData := [], budgetSpentData := [],
        costTypeData := [], divisionData := [] } :=
  ((identifyProjectRedFlags_spec _).1 _).mpr (Or.inl ⟨rfl, 50, rfl, by decide⟩)

/-- Claim C1 (amended): if the processing block throws (the division groupBy
key callback reaches a truthy non-string cost-code value), the catch returns
the result object exactly as mutated so far: budget totals still the zero
defaults and all five arrays empty, but the time fields written before the
throw (daysElapsed, totalDuration, percentTimeElapsed) keep the values
computed from the dates instead of being re-zeroed. -/
theorem normalizeBudgetData_catch (r0 : Row) (rest : List Row) (meta : ProjectMeta)
    (nowMs : ℚ) (nowLocale : String)
    (h : jsGroupByT (divKey (detectAndMapColumns r0)) (r0 :: rest) = none) :
    normalizeBudgetData (some (r0 :: rest)) meta nowMs nowLocale =
      applyTimeMetrics (defaultResult meta nowLocale) meta nowMs ∧
    (normalizeBudgetData (some (r0 :: rest)) meta nowMs nowLocale).budgetData = [] ∧
    (normalizeBudgetData (some (r0 :: rest)) meta nowMs nowLocale).timeData = [] ∧
    (normalizeBudgetData (some (r0 :: rest)) meta nowMs nowLocale).budgetSpentData = [] ∧
    (normalizeBudgetData (some (r0 :: rest)) meta nowMs nowLocale).costTypeData = [] ∧
    (normalizeBudgetData (some (r0 :: rest)) meta nowMs nowLocale).divisionData = [] ∧
    (normalizeBudgetData (some (r0 :: rest)) meta nowMs nowLocale).projectData.totalBudget =
      JSValue.vNum 0 ∧
    (normalizeBudgetData (some (r0 :: rest)) meta nowMs nowLocale).projectData.totalBilled =
      JSValue.vNum 0 ∧
    (normalizeBudgetData (some (r0 :: rest)) meta nowMs nowLocale).projectData.percentBilled = 0 ∧
    (normalizeBudgetData (some (r0 :: rest)) meta nowMs nowLocale).projectData.projectedFinal =
      JSValue.vNum 0 ∧
    (normalizeBudgetData (some (r0 :: rest)) meta nowMs nowLocale).projectData.projectedOverage =
      JSValue.vNum 0 ∧
    (normalizeBudgetData (some (r0 :: rest)) meta nowMs nowLocale).projectData.percentOverage = 0 := by
  have heq : normalizeBudgetData (some (r0 :: rest)) meta nowMs nowLocale =
      applyTimeMetrics (defaultResult meta nowLocale) meta nowMs := by
    simp only [normalizeBudgetData, h]
  refine ⟨heq, ?_, ?_, ?_, ?_, ?_, ?_, ?_, ?_, ?_, ?_, ?_⟩ <;>
    (rw [heq]; unfold applyTimeMetrics; split <;> rfl)

/-- Counterexample to C1 as stated: with valid dates and a numeric cost-code
value, the block throws after the time metrics were written into the result;
the record returned from the catch has non-zero daysElapsed, a non-empty
totalDuration and a non-zero percentTimeElapsed, while the error path is
visible in the still-unformatted zero totals. -/
theorem normalizeBudgetData_catch_counterexample :
    (normalizeBudgetData
        (some [[("Cost Code", JSValue.vNum 3), ("E - Current Contract Budget", JSValue.vStr "100")]])
        { projectName := none, startDate := some "2024-01-01", endDate := some "2024-12-31",
          currentDate := some "2024-04-10" } 0 "x").projectData.totalBudget = JSValue.vNum 0 ∧
    (normalizeBudgetData
        (some [[("Cost Code", JSValue.vNum 3), ("E - Current Contract Budget", JSValue.vStr "100")]])
        { projectName := none, startDate := some "2024-01-01", endDate := some "2024-12-31",
          currentDate := some "2024-04-10" } 0 "x").projectData.daysElapsed = some 100 ∧
    (normalizeBudgetData
        (some [[("Cost Code", JSValue.vNum 3), ("E - Current Contract Budget", JSValue.vStr "100")]])
        { projectName := none, startDate := some "2024-01-01", endDate := some "2024-12-31",
          currentDate := some "2024-04-10" } 0 "x").projectData.totalDuration = "13 months" ∧
    (normalizeBudgetData
        (some [[("Cost Code", JSValue.vNum 3), ("E - Current Contract Budget", JSValue.vStr "100")]])
        { projectName := none, startDate := some "2024-01-01", endDate := some "2024-12-31",
          currentDate := some "2024-04-10" } 0 "x").projectData.percentTimeElapsed =
      some (137 / 5) := by
  refine ⟨?_, ?_, ?_, ?_⟩ <;> decide

/-- Witness for C1 (amended) at a concrete throwing input. -/
theorem normalizeBudgetData_catch_witness :
    jsGroupByT (divKey (detectAndMapColumns [("Cost Code", JSValue.vNum 3)]))
      [[("Cost Code", JSValue.vNum 3)]] = none ∧
    (normalizeBudgetData (some [[("Cost Code", JSValue.vNum 3)]])
        { projectName := none, startDate := none, endDate := none, currentDate := none }
        0 "x").divisionData = [] :=
  ⟨by decide,
    (normalizeBudgetData_catch [("Cost Code", JSValue.vNum 3)] []
        { projectName := none, startDate := none, endDate := none, currentDate := none }
        0 "x" (by decide)).2.2.2.2.2.1⟩

/-- Counterexample to C2 as stated: a row whose cost-code value is the
number 3 makes the division groupBy callback throw; the returned record has
`totalBudget` still the plain number 0 even though the single row's parsed
budget is 100, so the output totals are not the per-row sums, and no
division grouping is produced. -/
theorem c2_grouping_counterexample :
    sumField [[("Cost Code", JSValue.vNum 3), ("E - Current Contract Budget", JSValue.vStr "100")]]
      (detectAndMapColumns
        [("Cost Code", JSValue.vNum 3), ("E - Current Contract Budget", JSValue.vStr "100")]).currentBudget
      = 100 ∧
    (normalizeBudgetData
        (some [[("Cost Code", JSValue.vNum 3), ("E - Current Contract Budget", JSValue.vStr "100")]])
        { projectName := none, startDate := none, endDate := none, currentDate := none }
        0 "x").projectData.totalBudget = JSValue.vNum 0 ∧
    (normalizeBudgetData
        (some [[("Cost Code", JSValue.vNum 3), ("E - Current Contract Budget", JSValue.vStr "100")]])
        { projectName := none, startDate := none, endDate := none, currentDate := none }
        0 "x").divisionData = [] := by
  refine ⟨?_, ?_, ?_⟩ <;> decide

/-- Claim C2 (amended): for every non-empty row list on which the division
key callback does not throw (every cost-code value is a string or falsy),
the division grouping assigns each row to exactly one group — keyed
"Div " followed by the leading decimal digits of its cost code, or "Other"
when the cost code is missing or has no leading digits — the cost-type
grouping assigns each row to exactly one group keyed by the field value (or
"Other" when missing), and the totals are the sums of the per-row parsed
fields, an unparsable value contributing 0, carried on the result record as
formatted currency strings. -/
theorem normalizeBudgetData_grouping (r0 : Row) (rest : List Row) (meta : ProjectMeta)
    (nowMs : ℚ) (nowLocale : String)
    (h : ∀ r ∈ r0 :: rest, (divKey (detectAndMapColumns r0) r).isSome = true) :
    (∃ G, jsGroupByT (divKey (detectAndMapColumns r0)) (r0 :: rest) = some G ∧
      (∀ r ∈ r0 :: rest, ∃! kg : String × List Row, kg ∈ G ∧ r ∈ kg.2) ∧
      (∀ kg ∈ G, ∀ r ∈ kg.2, divKey (detectAndMapColumns r0) r = some kg.1)) ∧
    (∀ r ∈ r0 :: rest, ∃! kg : String × List Row,
      kg ∈ jsGroupBy (costTypeKey (detectAndMapColumns r0)) (r0 :: rest) ∧ r ∈ kg.2) ∧
    (∀ r ∈ r0 :: rest, ∃ s, jsOr (getField r (detectAndMapColumns r0).costCode) (.vStr "") =
        JSValue.vStr s ∧
      divKey (detectAndMapColumns r0) r =
        some (if (s.data.takeWhile Char.isDigit).isEmpty then "Other"
          else "Div " ++ String.mk (s.data.takeWhile Char.isDigit))) ∧
    (∀ r : Row, (getField r (detectAndMapColumns r0).costType).truthy = false →
      costTypeKey (detectAndMapColumns r0) r = "Other") ∧
    (∀ fieldName, sumField (r0 :: rest) fieldName =
      ((r0 :: rest).map (fun r => toNum (getField r fieldName))).sum) ∧
    (∀ v, parseNum v = none → toNum v = 0) ∧
    ((normalizeBudgetData (some (r0 :: rest)) meta nowMs nowLocale).projectData.totalBudget =
        JSValue.vStr (formatCurrency
          (sumField (r0 :: rest) (detectAndMapColumns r0).currentBudget)) ∧
      (normalizeBudgetData (some (r0 :: rest)) meta nowMs nowLocale).projectData.totalBilled =
        JSValue.vStr (formatCurrency
          (sumField (r0 :: rest) (detectAndMapColumns r0).billedToDate)) ∧
      (normalizeBudgetData (some (r0 :: rest)) meta nowMs nowLocale).projectData.projectedFinal =
        JSValue.vStr (formatCurrency
          (sumField (r0 :: rest) (detectAndMapColumns r0).projectedCost))) := by
  obtain ⟨ks, hks⟩ := mapM_some_of_forall _ _ h
  have hGT : jsGroupByT (divKey (detectAndMapColumns r0)) (r0 :: rest) =
      some (jsGroupBy (fun r => (divKey (detectAndMapColumns r0) r).getD "") (r0 :: rest)) := by
    simp only [jsGroupByT, hks]
  refine ⟨⟨_, hGT, ?_, ?_⟩, ?_, ?_, ?_, ?_, ?_, ?_, ?_, ?_⟩
  · intro r hr
    exact jsGroupBy_exists_unique _ _ r hr
  · rintro ⟨k, g⟩ hkg r hrg
    have hmem := (jsGroupBy_mem _ _ k g).mp hkg
    have hrrows : r ∈ r0 :: rest := by
      rw [hmem.2] at hrg
      exact (List.mem_filter.mp hrg).1
    have hfr : (divKey (detectAndMapColumns r0) r).getD "" = k :=
      jsGroupBy_key_eq _ _ k g hkg r hrg
    have hs := h r hrrows
    cases hdk : divKey (detectAndMapColumns r0) r with
    | none => rw [hdk] at hs; simp at hs
    | some k2 =>
      rw [hdk] at hfr
      simp only [Option.getD_some] at hfr
      rw [hfr]
  · intro r hr
    exact jsGroupBy_exists_unique _ _ r hr
  · intro r hr
    have hs := h r hr
    cases hj : jsOr (getField r (detectAndMapColumns r0).costCode) (.vStr "") with
    | vStr s =>
      refine ⟨s, rfl, ?_⟩
      simp [divKey, hj]
    | vNull => simp [divKey, hj] at hs
    | vNum q => simp [divKey, hj] at hs
  · intro r htr
    simp [costTypeKey, jsOr, htr, jsValueToString]
  · intro fieldName
    exact sumField_eq_sum _ _
  · intro v hv
    simp [toNum, hv]
  · simp only [normalizeBudgetData, hGT]
  · simp only [normalizeBudgetData, hGT]
  · simp only [normalizeBudgetData, hGT]

/-- Witness for C2 (amended) at a concrete one-row input with a string
cost code. -/
theorem normalizeBudgetData_grouping_witness :
    (∀ r ∈ ([[("Cost Code", JSValue.vStr "03"),
        ("E - Current Contract Budget", JSValue.vStr "100")]] : List Row),
      (divKey (detectAndMapColumns [("Cost Code", JSValue.vStr "03"),
        ("E - Current Contract Budget", JSValue.vStr "100")]) r).isSome = true) ∧
    (normalizeBudgetData
        (some [[("Cost Code", JSValue.vStr "03"),
          ("E - Current Contract Budget", JSValue.vStr "100")]])
        { projectName := none, startDate := none, endDate := none, currentDate := none }
        0 "x").projectData.totalBudget =
      JSValue.vStr (formatCurrency
        (sumField [[("Cost Code", JSValue.vStr "03"),
            ("E - Current Contract Budget", JSValue.vStr "100")]]
          (detectAndMapColumns [("Cost Code", JSValue.vStr "03"),
            ("E - Current Contract Budget", JSValue.vStr "100")]).currentBudget)) :=
  ⟨by decide,
    (normalizeBudgetData_grouping
        [("Cost Code", JSValue.vStr "03"), ("E - Current Contract Budget", JSValue.vStr "100")] []
        { projectName := none, startDate := none, endDate := none, currentDate := none }
        0 "x" (by decide)).2.2.2.2.2.2.1⟩

/-- Claim C6: the variance arithmetic. At the project level
`projectedOverage = projectedFinalCost - totalBudget` and
`percentOverage = (projectedOverage / totalBudget) * 100` when
`totalBudget > 0`, else 0 (stored rounded to 2 decimals); per division entry
`variance = percentComplete - expectedComplete` rounded to 2 decimals; per
top budget item `variance = budget - projected`, where `projected` defaults
to the item's budget when the projected-cost field does not parse. -/
theorem varianceArithmetic_spec (r0 : Row) (rest : List Row) (meta : ProjectMeta)
    (nowMs : ℚ) (nowLocale : String) (G : List (String × List Row))
    (hG : jsGroupByT (divKey (detectAndMapColumns r0)) (r0 :: rest) = some G) :
    ((normalizeBudgetData (some (r0 :: rest)) meta nowMs nowLocale).projectData.projectedOverage =
      JSValue.vStr (formatCurrency
        (sumField (r0 :: rest) (detectAndMapColumns r0).projectedCost -
          sumField (r0 :: rest) (detectAndMapColumns r0).currentBudget)) ∧
     (normalizeBudgetData (some (r0 :: rest)) meta nowMs nowLocale).projectData.percentOverage =
      round2 (if sumField (r0 :: rest) (detectAndMapColumns r0).currentBudget > 0
        then (sumField (r0 :: rest) (detectAndMapColumns r0).projectedCost -
          sumField (r0 :: rest) (detectAndMapColumns r0).currentBudget) /
          sumField (r0 :: rest) (detectAndMapColumns r0).currentBudget * 100
        else 0)) ∧
    (∀ (g : List (String × List Row)) (cm : ColumnMap) (ec : NumV),
      ∀ e ∈ processDivisionData g cm ec, ∃ kg ∈ g,
        sumField kg.2 cm.currentBudget > 0 ∧
        e.complete = round2 (sumField kg.2 cm.billedToDate /
          sumField kg.2 cm.currentBudget * 100) ∧
        e.variance = (numSub (some (sumField kg.2 cm.billedToDate /
          sumField kg.2 cm.currentBudget * 100)) ec).map round2) ∧
    (∀ (cm : ColumnMap) (row : Row),
      (mkBudgetItem cm row).variance =
        (mkBudgetItem cm row).budget - (mkBudgetItem cm row).projected ∧
      (parseNum (getField row cm.projectedCost) = none →
        (mkBudgetItem cm row).projected = (mkBudgetItem cm row).budget)) := by
  refine ⟨⟨?_, ?_⟩, ?_, ?_⟩
  · simp only [normalizeBudgetData, hG]
  · simp only [normalizeBudgetData, hG]
  · intro g cm ec e he
    unfold processDivisionData at he
    obtain ⟨kg, hkg, hsome⟩ := List.mem_filterMap.mp ((mem_sortByKey _ _ _).mp he)
    refine ⟨kg, hkg, ?_⟩
    simp only [mkDivisionEntry] at hsome
    split at hsome
    next htb =>
      rw [Option.some.injEq] at hsome
      subst hsome
      exact ⟨htb, rfl, rfl⟩
    next => simp at hsome
  · intro cm row
    refine ⟨rfl, ?_⟩
    intro hp
    simp only [mkBudgetItem, parseFloatOr, hp]

/-- Witness for C6 at a concrete one-row input. -/
theorem varianceArithmetic_spec_witness :
    (normalizeBudgetData
        (some [[("Cost Code", JSValue.vStr "03"),
          ("E - Current Contract Budget", JSValue.vStr "100")]])
        { projectName := none, startDate := none, endDate := none, currentDate := none }
        0 "x").projectData.projectedOverage =
      JSValue.vStr (formatCurrency
        (sumField [[("Cost Code", JSValue.vStr "03"),
            ("E - Current Contract Budget", JSValue.vStr "100")]]
          (detectAndMapColumns [("Cost Code", JSValue.vStr "03"),
            ("E - Current Contract Budget", JSValue.vStr "100")]).projectedCost -
          sumField [[("Cost Code", JSValue.vStr "03"),
            ("E - Current Contract Budget", JSValue.vStr "100")]]
          (detectAndMapColumns [("Cost Code", JSValue.vStr "03"),
            ("E - Current Contract Budget", JSValue.vStr "100")]).currentBudget)) :=
  (varianceArithmetic_spec
      [("Cost Code", JSValue.vStr "03"), ("E - Current Contract Budget", JSValue.vStr "100")] []
      { projectName := none, startDate := none, endDate := none, currentDate := none }
      0 "x"
      [("Div 03", [[("Cost Code", JSValue.vStr "03"),
        ("E - Current Contract Budget", JSValue.vStr "100")]])]
      (by decide)).1.1

/-- Claim C7 (amended): the budget-side guards hold — `percentBilled` and
`percentOverage` are 0 whenever `totalBudget` is not strictly positive, and
the per-group `percentComplete` of `processCostTypeData` and
`processDivisionData` is computed only for groups whose summed budget is
strictly positive (other groups are omitted) — but the time percentage is
not guarded: whenever the computed `totalDays` is 0, its division yields a
non-finite value (JS `NaN`/`Infinity`) rather than being prevented. -/
theorem divisionByZeroGuard (r0 : Row) (rest : List Row) (meta : ProjectMeta)
    (nowMs : ℚ) (nowLocale : String) (G : List (String × List Row))
    (hG : jsGroupByT (divKey (detectAndMapColumns r0)) (r0 :: rest) = some G)
    (htb : ¬ sumField (r0 :: rest) (detectAndMapColumns r0).currentBudget > 0) :
    (normalizeBudgetData (some (r0 :: rest)) meta nowMs nowLocale).projectData.percentBilled
      = 0 ∧
    (normalizeBudgetData (some (r0 :: rest)) meta nowMs nowLocale).projectData.percentOverage
      = 0 ∧
    (∀ (g : List (String × List Row)) (cm : ColumnMap) (ec : NumV),
      ∀ e ∈ processCostTypeData g cm ec, ∃ kg ∈ g, sumField kg.2 cm.currentBudget > 0) ∧
    (∀ (g : List (String × List Row)) (cm : ColumnMap) (ec : NumV),
      ∀ e ∈ processDivisionData g cm ec, ∃ kg ∈ g, sumField kg.2 cm.currentBudget > 0) ∧
    (∀ (m : ProjectMeta) (nms : ℚ), totalDaysOf m = some 0 →
      percentTimeElapsedOf m nms = none) := by
  refine ⟨?_, ?_, ?_, ?_, ?_⟩
  · simp only [normalizeBudgetData, hG]
    rw [if_neg htb]
    decide
  · simp only [normalizeBudgetData, hG]
    rw [if_neg htb]
    decide
  · intro g cm ec e he
    unfold processCostTypeData at he
    obtain ⟨kg, hkg, hsome⟩ := List.mem_filterMap.mp he
    refine ⟨kg, hkg, ?_⟩
    simp only at hsome
    split at hsome
    next htb2 => exact htb2
    next => simp at hsome
  · intro g cm ec e he
    unfold processDivisionData at he
    obtain ⟨kg, hkg, hsome⟩ := List.mem_filterMap.mp ((mem_sortByKey _ _ _).mp he)
    refine ⟨kg, hkg, ?_⟩
    simp only [mkDivisionEntry] at hsome
    split at hsome
    next htb2 => exact htb2
    next => simp at hsome
  · intro m nms h0
    unfold percentTimeElapsedOf
    rw [h0]
    cases elapsedDaysOf m nms <;> simp

/-- Counterexample to C7 as stated: with `startDate = endDate` the block
runs the time metrics, `totalDays` is 0, and the unguarded division
`elapsedDays / totalDays` produces a non-finite `percentTimeElapsed`, so a
division by zero is reachable. -/
theorem divisionByZeroGuard_counterexample :
    totalDaysOf { projectName := none, startDate := some "2024-05-01",
                  endDate := some "2024-05-01", currentDate := some "2024-05-01" } = some 0 ∧
    percentTimeElapsedOf { projectName := none, startDate := some "2024-05-01",
                           endDate := some "2024-05-01", currentDate := some "2024-05-01" } 0
      = none ∧
    (normalizeBudgetData
        (some [[("Cost Code", JSValue.vStr "03"),
          ("E - Current Contract Budget", JSValue.vStr "100")]])
        { projectName := none, startDate := some "2024-05-01", endDate := some "2024-05-01",
          currentDate := some "2024-05-01" } 0 "x").projectData.percentTimeElapsed = none := by
  refine ⟨?_, ?_, ?_⟩ <;> decide

/-- Witness for C7 (amended) at a concrete zero-budget input. -/
theorem divisionByZeroGuard_witness :
    (normalizeBudgetData (some [[("Cost Code", JSValue.vStr "03")]])
        { projectName := none, startDate := none, endDate := none, currentDate := none }
        0 "x").projectData.percentBilled = 0 :=
  (divisionByZeroGuard [("Cost Code", JSValue.vStr "03")] []
      { projectName := none, startDate := none, endDate := none, currentDate := none }
      0 "x" [("Div 03", [[("Cost Code", JSValue.vStr "03")]])]
      (by decide) (by decide)).1

/-- Claim C9 (amended): whenever the processing block completes, `timeData`
and `budgetSpentData` are the complementary pairs built from
`percentTimeElapsed` and `percentBilled`; the budget pair always sums to
exactly 100, and the time pair sums to exactly 100 whenever
`percentTimeElapsed` is a finite number. -/
theorem complementaryPairs (r0 : Row) (rest : List Row) (meta : ProjectMeta)
    (nowMs : ℚ) (nowLocale : String) (G : List (String × List Row))
    (hG : jsGroupByT (divKey (detectAndMapColumns r0)) (r0 :: rest) = some G)
    (nd : NormalizedResult)
    (hnd : nd = normalizeBudgetData (some (r0 :: rest)) meta nowMs nowLocale) :
    nd.timeData = [("Time Elapsed", nd.projectData.percentTimeElapsed),
      ("Time Remaining", numSub (some 100) nd.projectData.percentTimeElapsed)] ∧
    nd.budgetSpentData = [("Budget Spent", nd.projectData.percentBilled),
      ("Budget Remaining", 100 - nd.projectData.percentBilled)] ∧
    nd.projectData.percentBilled + (100 - nd.projectData.percentBilled) = 100 ∧
    (∀ q, nd.projectData.percentTimeElapsed = some q →
      numAdd nd.projectData.percentTimeElapsed
        (numSub (some 100) nd.projectData.percentTimeElapsed) = some 100) := by
  subst hnd
  refine ⟨?_, ?_, by ring, ?_⟩
  · simp only [normalizeBudgetData, hG]
  · simp only [normalizeBudgetData, hG]
  · intro q hq
    rw [hq]
    simp only [numSub, numAdd, Option.some.injEq]
    ring

/-- Counterexample to C9 as stated: with `startDate = endDate` the block
completes, but both `timeData` values are the non-finite marker and their
sum is not 100. -/
theorem complementaryPairs_counterexample :
    ((normalizeBudgetData
        (some [[("Cost Code", JSValue.vStr "03"),
          ("E - Current Contract Budget", JSValue.vStr "100")]])
        { projectName := none, startDate := some "2024-05-01", endDate := some "2024-05-01",
          currentDate := some "2024-05-01" } 0 "x").timeData.map Prod.snd) = [none, none] ∧
    numAdd none none ≠ some (100 : ℚ) := by
  refine ⟨?_, ?_⟩ <;> decide

/-- Witness for C9 (amended) at a concrete input. -/
theorem complementaryPairs_witness :
    (normalizeBudgetData (some [[("Cost Code", JSValue.vStr "03")]])
        { projectName := none, startDate := none, endDate := none, currentDate := none }
        0 "x").timeData =
      [("Time Elapsed",
        (normalizeBudgetData (some [[("Cost Code", JSValue.vStr "03")]])
            { projectName := none, startDate := none, endDate := none, currentDate := none }
            0 "x").projectData.percentTimeElapsed),
       ("Time Remaining",
        numSub (some 100)
          (normalizeBudgetData (some [[("Cost Code", JSValue.vStr "03")]])
              { projectName := none, startDate := none, endDate := none, currentDate := none }
              0 "x").projectData.percentTimeElapsed)] :=
  (complementaryPairs [("Cost Code", JSValue.vStr "03")] []
      { projectName := none, startDate := none, endDate := none, currentDate := none }
      0 "x" [("Div 03", [[("Cost Code", JSValue.vStr "03")]])]
      (by decide) _ rfl).1
